import Mathlib

/-!
Verification development for `leaflet.tilelayer.glcolorscale`.

This file gives a shallow embedding, over exact rational arithmetic, of the
program's core algorithms:

* the GLSL float codec (`util/rgbaToFloat.glsl`): `floatsToBytes`,
  `bytesToBits`, `getExponent`, `getMantissa`, `bitsToFloat`, `rgbaToFloat`;
* the GLSL color resolver (`util/computeColor.glsl`): `computeColor` and its
  sentinel scan / scale-stop loop, together with `isCloseEnough`
  (`util/isCloseEnough.glsl`);
* the per-pixel logic of the three fragment shaders (`single.frag.glsl`,
  `interpolateValue.frag.glsl`, `interpolateColor.frag.glsl`), modelled as
  functions from decoded pixel values to `Option Vec4` (`none` = `discard`);
* the Pixel Inspector `_getPixelValue` from `src/index.ts`;
* the configuration check `_checkColorScaleAndSentinels` from `src/index.ts`;
* the atlas event traces produced by `Renderer.renderTiles` and by one frame
  of `Renderer.renderTilesWithTransition` (`src/Renderer.ts`).

GLSL float arithmetic is modelled by exact `ℚ` arithmetic; machine integers
that appear (bytes, loop indices, uniform lengths) are modelled by `ℕ`.
WebGL uniform array entries that are never bound by the component keep their
zero default, which coincides with `DEFAULT_COLOR_STOP` from `constants.ts`
(offset `0`, fully transparent color); reads of such entries are modelled by
`List.getD` with that default.
-/

/-- Component-wise rational 4-vector, modelling GLSL `vec4`. -/
structure Vec4 where
  x : ℚ
  y : ℚ
  z : ℚ
  w : ℚ
deriving DecidableEq, Repr

/-- GLSL struct `ScaleStop` (`util/ScaleStop.glsl`): a color stop with a
color and an offset. -/
structure ScaleStop where
  color : Vec4
  offset : ℚ
deriving DecidableEq, Repr

/-- Constant `RELATIVE_TOLERANCE = 0.0001` from `util/isCloseEnough.glsl`. -/
def RELATIVE_TOLERANCE : ℚ := 1 / 10000

/-- Function `isCloseEnough` from `util/isCloseEnough.glsl`:
`abs(a - b) < abs(a * RELATIVE_TOLERANCE)`. Note the asymmetry: the
tolerance is relative to the first argument. -/
def isCloseEnough (a b : ℚ) : Bool :=
  |a - b| < |a * RELATIVE_TOLERANCE|

/-- Constant `TRANSPARENT = vec4(0.0, 0.0, 0.0, 0.0)` from the transition
fragment shaders. -/
def TRANSPARENT : Vec4 := ⟨0, 0, 0, 0⟩

/-- Constant `DEFAULT_COLOR_STOP` from `src/constants.ts`: color
`CLEAR_COLOR = [0, 0, 0, 0]`, offset `0`. `regl-commands.ts` binds it (via
`util.bindStructArray`) to every uniform array entry beyond the configured
scale/sentinel list, and it equals the WebGL zero default for unset
uniforms. -/
def DEFAULT_COLOR_STOP : ScaleStop := ⟨TRANSPARENT, 0⟩

/-- Read of a `ScaleStop` uniform array entry: configured entries come from
the bound list, everything else holds `DEFAULT_COLOR_STOP`. -/
def getStop (l : List ScaleStop) (i : ℕ) : ScaleStop :=
  l.getD i DEFAULT_COLOR_STOP

/-- GLSL `mix(x, y, a)` on scalars: `x * (1 - a) + y * a`. -/
def mixQ (x y a : ℚ) : ℚ := x * (1 - a) + y * a

/-- GLSL `mix(x, y, a)` on `vec4`, component-wise. -/
def mixVec4 (c d : Vec4) (a : ℚ) : Vec4 :=
  ⟨mixQ c.x d.x a, mixQ c.y d.y a, mixQ c.z d.z a, mixQ c.w d.w a⟩

/-- Constant `SCALE_MAX_LENGTH = 16`: value of the macro/const used by every
fragment shader for the color-scale uniform array, equal to
`COLOR_SCALE_MAX_LENGTH` in `src/constants.ts`. -/
def SCALE_MAX_LENGTH : ℕ := 16

/-- Constant `SENTINEL_VALUES_MAX_LENGTH = 16` from `src/constants.ts`: the
component-side maximum sentinel count, bound as the `SENTINEL_MAX_LENGTH`
macro of `single.frag.glsl` by `regl-commands.ts` (`fragMacros`). -/
def SENTINEL_VALUES_MAX_LENGTH : ℕ := 16

/-- Constant `const int SENTINEL_MAX_LENGTH = 4` declared at the top of both
transition fragment shaders (`interpolateValue.frag.glsl` and
`interpolateColor.frag.glsl`). -/
def SENTINEL_MAX_LENGTH : ℕ := 4

/-- Sentinel scan loop of `computeColor` (`util/computeColor.glsl`):
for `i` from the current index while fuel remains, break when `i` equals
`sentinelValuesLength`, return the sentinel's color on
`isCloseEnough(inputVal, sentinel.offset)`. `fuel` counts the remaining
loop iterations (`SENTINEL_MAX_LENGTH - i` in the source). -/
def scanSentinelsAux (inputVal : ℚ) (sentinelValues : List ScaleStop)
    (sentinelValuesLength : ℕ) : ℕ → ℕ → Option Vec4
  | _, 0 => none
  | i, fuel + 1 =>
    if i = sentinelValuesLength then none
    else if isCloseEnough inputVal (getStop sentinelValues i).offset then
      some (getStop sentinelValues i).color
    else scanSentinelsAux inputVal sentinelValues sentinelValuesLength (i + 1) fuel

/-- Color-scale loop of `computeColor` (`util/computeColor.glsl`): for `i`
from the current index while fuel remains, return the previous stop's color
when `i` equals `colorScaleLength` (upper clamp), otherwise interpolate
between stops `i` and `i+1` when `inputVal <= colorScale[i+1].offset`.
When the loop exhausts `SCALE_MAX_LENGTH` iterations the source falls
through to `return vec4(1.0)`. -/
def scaleLoopAux (inputVal : ℚ) (colorScale : List ScaleStop)
    (colorScaleLength : ℕ) : ℕ → ℕ → Vec4
  | _, 0 => ⟨1, 1, 1, 1⟩
  | i, fuel + 1 =>
    if i = colorScaleLength then (getStop colorScale (i - 1)).color
    else if inputVal ≤ (getStop colorScale (i + 1)).offset then
      mixVec4 (getStop colorScale i).color (getStop colorScale (i + 1)).color
        ((inputVal - (getStop colorScale i).offset) /
          ((getStop colorScale (i + 1)).offset - (getStop colorScale i).offset))
    else scaleLoopAux inputVal colorScale colorScaleLength (i + 1) fuel

/-- Function `computeColor` from `util/computeColor.glsl`. Arguments follow
the source signature `(inputVal, colorScale, sentinelValues,
colorScaleLength, sentinelValuesLength)`; `scaleCap` and `sentinelCap` are
the `SCALE_MAX_LENGTH` / `SENTINEL_MAX_LENGTH` macro values of the
including shader (16/16 for `single.frag.glsl`, 16/4 for the transition
shaders). -/
def computeColor (inputVal : ℚ) (colorScale sentinelValues : List ScaleStop)
    (colorScaleLength sentinelValuesLength : ℕ)
    (scaleCap sentinelCap : ℕ) : Vec4 :=
  match scanSentinelsAux inputVal sentinelValues sentinelValuesLength 0 sentinelCap with
  | some c => c
  | none =>
    if inputVal < (getStop colorScale 0).offset then (getStop colorScale 0).color
    else scaleLoopAux inputVal colorScale colorScaleLength 0 scaleCap

/-- Loop body of `isSentinelValue` (`interpolateValue.frag.glsl`): break at
`len`, return `true` on `isCloseEnough(sentinelValues[i].offset, value)`
(note: tolerance relative to the sentinel offset here, unlike
`computeColor`). -/
def isSentinelValueAux (sentinelValues : List ScaleStop) (len : ℕ) (value : ℚ) :
    ℕ → ℕ → Bool
  | _, 0 => false
  | i, fuel + 1 =>
    if i = len then false
    else if isCloseEnough (getStop sentinelValues i).offset value then true
    else isSentinelValueAux sentinelValues len value (i + 1) fuel

/-- Function `isSentinelValue(sentinelValues, len, value)` from
`interpolateValue.frag.glsl`; the loop runs up to `SENTINEL_MAX_LENGTH = 4`
iterations. -/
def isSentinelValue (sentinelValues : List ScaleStop) (len : ℕ) (value : ℚ) : Bool :=
  isSentinelValueAux sentinelValues len value 0 SENTINEL_MAX_LENGTH

/-- Per-pixel body of `main` in the single-tile fragment shader
(`single.frag.glsl`), as a function of the decoded pixel value
(`rgbaToFloat(texture2D(texture, vTexCoord), littleEndian)` in the source):
discard (`none`) on `isCloseEnough(pixelFloatValue, nodataValue)`, else
`computeColor` with macro caps `SCALE_MAX_LENGTH = 16`,
`SENTINEL_MAX_LENGTH = SENTINEL_VALUES_MAX_LENGTH = 16` (from
`fragMacros` in `regl-commands.ts`). -/
def singleMain (pixelFloatValue nodataValue : ℚ)
    (colorScale sentinelValues : List ScaleStop)
    (colorScaleLength sentinelValuesLength : ℕ) : Option Vec4 :=
  if isCloseEnough pixelFloatValue nodataValue then none
  else some (computeColor pixelFloatValue colorScale sentinelValues
    colorScaleLength sentinelValuesLength SCALE_MAX_LENGTH SENTINEL_VALUES_MAX_LENGTH)

/-- Per-pixel body of `main` in the value-interpolating transition shader
(`interpolateValue.frag.glsl`), as a function of the interpolation fraction
and the two decoded pixel values (from `textureA` and `textureB`). The
shader's own `const SENTINEL_MAX_LENGTH = 4` caps every sentinel loop. -/
def interpolateValueMain (interpolationFraction vA vB nodataValue : ℚ)
    (colorScale sentinelValues : List ScaleStop)
    (colorScaleLength sentinelValuesLength : ℕ) : Option Vec4 :=
  if interpolationFraction ≤ 0 then
    if isCloseEnough vA nodataValue then none
    else some (computeColor vA colorScale sentinelValues
      colorScaleLength sentinelValuesLength SCALE_MAX_LENGTH SENTINEL_MAX_LENGTH)
  else if 1 ≤ interpolationFraction then
    if isCloseEnough vB nodataValue then none
    else some (computeColor vB colorScale sentinelValues
      colorScaleLength sentinelValuesLength SCALE_MAX_LENGTH SENTINEL_MAX_LENGTH)
  else
    let aIsNodata := isCloseEnough vA nodataValue
    let bIsNodata := isCloseEnough vB nodataValue
    if aIsNodata && bIsNodata then none
    else if aIsNodata || bIsNodata
        || isSentinelValue sentinelValues sentinelValuesLength vA
        || isSentinelValue sentinelValues sentinelValuesLength vB then
      some (mixVec4
        (if aIsNodata then TRANSPARENT
         else computeColor vA colorScale sentinelValues
           colorScaleLength sentinelValuesLength SCALE_MAX_LENGTH SENTINEL_MAX_LENGTH)
        (if bIsNodata then TRANSPARENT
         else computeColor vB colorScale sentinelValues
           colorScaleLength sentinelValuesLength SCALE_MAX_LENGTH SENTINEL_MAX_LENGTH)
        interpolationFraction)
    else some (computeColor (mixQ vA vB interpolationFraction)
      colorScale sentinelValues colorScaleLength sentinelValuesLength
      SCALE_MAX_LENGTH SENTINEL_MAX_LENGTH)

/-- Per-pixel body of `main` in the color-interpolating transition shader
(`interpolateColor.frag.glsl`), carrying a separate scale and sentinel set
per source. The shader's `computeColor` call sites list their arguments as
`(value, colorScaleX, colorScaleLengthX, sentinelValuesX,
sentinelValuesLengthX)`, which does not match the parameter order declared
in `util/computeColor.glsl` (`(value, colorScale, sentinelValues,
colorScaleLength, sentinelValuesLength)`); here the arguments are matched
to parameters by their evident names. -/
def interpolateColorMain (interpolationFraction vA vB nodataValue : ℚ)
    (colorScaleA sentinelValuesA colorScaleB sentinelValuesB : List ScaleStop)
    (colorScaleLengthA sentinelValuesLengthA
      colorScaleLengthB sentinelValuesLengthB : ℕ) : Option Vec4 :=
  if interpolationFraction ≤ 0 then
    if isCloseEnough vA nodataValue then none
    else some (computeColor vA colorScaleA sentinelValuesA
      colorScaleLengthA sentinelValuesLengthA SCALE_MAX_LENGTH SENTINEL_MAX_LENGTH)
  else if 1 ≤ interpolationFraction then
    if isCloseEnough vB nodataValue then none
    else some (computeColor vB colorScaleB sentinelValuesB
      colorScaleLengthB sentinelValuesLengthB SCALE_MAX_LENGTH SENTINEL_MAX_LENGTH)
  else
    some (mixVec4
      (if isCloseEnough vA nodataValue then TRANSPARENT
       else computeColor vA colorScaleA sentinelValuesA
         colorScaleLengthA sentinelValuesLengthA SCALE_MAX_LENGTH SENTINEL_MAX_LENGTH)
      (if isCloseEnough vB nodataValue then TRANSPARENT
       else computeColor vB colorScaleB sentinelValuesB
         colorScaleLengthB sentinelValuesLengthB SCALE_MAX_LENGTH SENTINEL_MAX_LENGTH)
      interpolationFraction)

/-- Bit-extraction inner loop of `bytesToBits` (`util/rgbaToFloat.glsl`)
for one byte: for `indexInByte` from `k-1` down to `0`, emit
`acc >= 2^indexInByte` (most-significant first) and replace `acc` by
`mod(acc, 2^indexInByte)`. -/
def byteBitsAux : ℕ → ℕ → List Bool
  | _, 0 => []
  | acc, k + 1 => decide (2 ^ k ≤ acc) :: byteBitsAux (acc % 2 ^ k) k

/-- Function `bytesToBits` from `util/rgbaToFloat.glsl`: expand each byte of
the (byte-significance-ordered) quadruple into its 8 bits, most-significant
first, concatenated channel by channel. -/
def bytesToBits (bytes : List ℕ) : List Bool :=
  (bytes.map (fun b => byteBitsAux b 8)).flatten

/-- Value of a most-significant-first bit string, as accumulated by the
weighted sums in `getExponent` / `getMantissa` of `util/rgbaToFloat.glsl`. -/
def valBits (bits : List Bool) : ℕ :=
  bits.foldl (fun acc b => 2 * acc + b.toNat) 0

/-- Function `getExponent` from `util/rgbaToFloat.glsl`: the value of bits
1 through 8. -/
def getExponent (bits : List Bool) : ℕ :=
  valBits ((bits.drop 1).take 8)

/-- Function `getMantissa` from `util/rgbaToFloat.glsl`: the value of bits
9 through 31, plus the implicit leading bit `2^23` unless subnormal. -/
def getMantissa (bits : List Bool) (subnormal : Bool) : ℕ :=
  (if subnormal then 0 else 2 ^ 23) + valBits ((bits.drop 9).take 23)

/-- Function `bitsToFloat` from `util/rgbaToFloat.glsl`:
`signBit * mantissa * exp2(exponent - 127 - 23)`, where `subnormal` is
`abs(exponent - 0.0) < 0.01`, i.e. a zero exponent field (the exponent is
integer-valued). Note the source applies the same biased exponent
`exponent - 150` to the subnormal case. -/
def bitsToFloat (bits : List Bool) : ℚ :=
  let signBit : ℚ := if bits.getD 0 false then -1 else 1
  let exponent := getExponent bits
  let subnormal : Bool := decide (exponent = 0)
  let mantissa := getMantissa bits subnormal
  signBit * mantissa * (2 : ℚ) ^ ((exponent : ℤ) - 127 - 23)

/-- Function `floatsToBytes` from `util/rgbaToFloat.glsl`:
`ivec4(inputFloats * 255.0)` (truncation; the channels are non-negative, so
truncation is the floor), then `.abgr` channel reversal when little-endian. -/
def floatsToBytes (inputFloats : List ℚ) (littleEndian : Bool) : List ℕ :=
  let bytes := inputFloats.map (fun c => (⌊c * 255⌋).toNat)
  if littleEndian then bytes.reverse else bytes

/-- Function `rgbaToFloat` from `util/rgbaToFloat.glsl`: denormalize the
RGBA channels to bytes, expand to 32 bits, parse per `bitsToFloat`. -/
def rgbaToFloat (rgbaFloats : List ℚ) (littleEndian : Bool) : ℚ :=
  bitsToFloat (bytesToBits (floatsToBytes rgbaFloats littleEndian))

/-- Big-endian byte quadruple of the IEEE-754 single-precision encoding
with sign `s`, exponent field `e` and mantissa field `m`. -/
def ieeeBytes (s : Bool) (e m : ℕ) : List ℕ :=
  [128 * s.toNat + e / 2,
   (e % 2) * 128 + m / 2 ^ 16,
   (m / 2 ^ 8) % 256,
   m % 256]

/-- Channel values in `[0,1]` obtained by splitting the four IEEE-754 bytes
of `(s, e, m)` into normalized texture channels, in big- or little-endian
channel order. -/
def ieeeChannels (s : Bool) (e m : ℕ) (littleEndian : Bool) : List ℚ :=
  let chans := (ieeeBytes s e m).map (fun (b : ℕ) => (b : ℚ) / 255)
  if littleEndian then chans.reverse else chans

/-- Real value of the IEEE-754 single-precision datum with sign `s`,
exponent field `e` (finite: `e < 255`) and mantissa field `m`: subnormals
(`e = 0`) are `±m · 2^(1-127-23)`, normals are `±(2^23+m) · 2^(e-127-23)`. -/
def ieeeVal (s : Bool) (e m : ℕ) : ℚ :=
  (if s then -1 else 1) *
    (if e = 0 then (m : ℚ) * (2 : ℚ) ^ (-149 : ℤ)
     else ((2 ^ 23 + m : ℕ) : ℚ) * (2 : ℚ) ^ ((e : ℤ) - 150))

/-- TypeScript interface `SentinelValue` (`src/types.d.ts`): a color stop
with a mandatory label. -/
structure SentinelValue where
  offset : ℚ
  color : Vec4
  label : String
deriving DecidableEq, Repr

/-- Constant `BYTES_PER_WORD = 4` from `src/index.ts` (four bytes in a
32-bit float). -/
def BYTES_PER_WORD : ℕ := 4

/-- Model of `DataView.getFloat32(byteIndex, littleEndian)` as used by
`_getPixelValue`: read four bytes starting at `byteIndex` (in machine order
when `littleEndian`), and interpret them as an IEEE-754 single. Only finite
values (exponent field below 255) are meaningfully modelled in `ℚ`. -/
def getFloat32 (data : List ℕ) (byteIndex : ℕ) (littleEndian : Bool) : ℚ :=
  let raw := [data.getD byteIndex 0, data.getD (byteIndex + 1) 0,
              data.getD (byteIndex + 2) 0, data.getD (byteIndex + 3) 0]
  let bytes := if littleEndian then raw.reverse else raw
  let b0 := bytes.getD 0 0
  let b1 := bytes.getD 1 0
  ieeeVal (decide (128 ≤ b0)) ((b0 % 128) * 2 + b1 / 128)
    ((b1 % 128) * 2 ^ 16 + bytes.getD 2 0 * 2 ^ 8 + bytes.getD 3 0)

/-- Method `_getPixelValue` from `src/index.ts`, as a function of the
tile's pixel byte buffer, the tile size, the pixel's in-tile coordinates,
the process-wide machine endianness flag, the configured no-data value and
sentinel list. The source returns `undefined` (here `none`) when the float
equals `nodataValue` exactly, the first sentinel object whose offset equals
the float exactly, else the raw number. -/
def getPixelValue (pixelData : List ℕ) (tileSize x y : ℕ) (littleEndian : Bool)
    (nodataValue : ℚ) (sentinelValues : List SentinelValue) :
    Option (ℚ ⊕ SentinelValue) :=
  let byteIndex := (y * tileSize + x) * BYTES_PER_WORD
  let pixelValue := getFloat32 pixelData byteIndex littleEndian
  if pixelValue = nodataValue then none
  else
    match sentinelValues.find? (fun s => s.offset = pixelValue) with
    | some s => some (Sum.inr s)
    | none => some (Sum.inl pixelValue)

/-- Method `_checkColorScaleAndSentinels` from `src/index.ts`, as a function
of the two configured array lengths. The source throws (here
`Except.error`) when both arrays are empty, when the color scale exceeds
`SCALE_MAX_LENGTH = 16`, or when the sentinel list exceeds the 16-entry
component maximum (imported into `index.ts` as `SENTINEL_MAX_LENGTH`,
equal to `SENTINEL_VALUES_MAX_LENGTH` here). -/
def checkColorScaleAndSentinels (colorScaleLength sentinelValuesLength : ℕ) :
    Except String Unit :=
  if colorScaleLength = 0 ∧ sentinelValuesLength = 0 then
    Except.error "Either `colorScale` or `sentinelValues` must be of non-zero length."
  else if colorScaleLength > SCALE_MAX_LENGTH then
    Except.error "Color scale length exceeds the maximum."
  else if sentinelValuesLength > SENTINEL_VALUES_MAX_LENGTH then
    Except.error "Sentinel values length exceeds the maximum."
  else Except.ok ()

/-- Observable actions of the component that follow a successful
configuration check. -/
inductive ComponentAction where
  | createdRenderer : ComponentAction
  | maybePreloaded : ComponentAction
  | updatedTiles : ComponentAction
deriving DecidableEq, Repr

/-- Model of the `GLColorScale` constructor (`src/index.ts`): after merging
options, `_checkColorScaleAndSentinels` runs first; only when it passes is
the `Renderer` constructed and preloading considered. A thrown check
surfaces synchronously and nothing is rendered. -/
def constructorActions (colorScaleLength sentinelValuesLength : ℕ) :
    Except String (List ComponentAction) :=
  match checkColorScaleAndSentinels colorScaleLength sentinelValuesLength with
  | Except.error e => Except.error e
  | Except.ok _ =>
    Except.ok [ComponentAction.createdRenderer, ComponentAction.maybePreloaded]

/-- Model of `updateOptions` (`src/index.ts`): after `L.Util.setOptions`,
`_checkColorScaleAndSentinels` runs before `_maybePreload` and before any
tile update (re-render) is triggered by a URL change. -/
def updateOptionsActions (colorScaleLength sentinelValuesLength : ℕ)
    (urlChanged : Bool) : Except String (List ComponentAction) :=
  match checkColorScaleAndSentinels colorScaleLength sentinelValuesLength with
  | Except.error e => Except.error e
  | Except.ok _ =>
    Except.ok (ComponentAction.maybePreloaded ::
      if urlChanged then [ComponentAction.updatedTiles] else [])

/-- Atlas-affecting events issued by the `Renderer` (`src/Renderer.ts`)
against a `TextureManager`: `clearTiles`, `addTile` (tagged with a tile
identifier) and a batched draw call. -/
inductive AtlasEvent where
  | clearTiles : AtlasEvent
  | addTile : ℕ → AtlasEvent
  | draw : AtlasEvent
deriving DecidableEq, Repr

/-- Fuel-indexed lodash `chunk`: split a list into consecutive chunks of
size `n` (the last possibly shorter); `chunk(xs, 0)` is empty. The fuel is
an upper bound on the recursion depth, instantiated with `xs.length`. -/
def chunkListAux (n : ℕ) : List α → ℕ → List (List α)
  | [], _ => []
  | _, 0 => []
  | xs, fuel + 1 => if n = 0 then [] else xs.take n :: chunkListAux n (xs.drop n) fuel

/-- Lodash `chunk(xs, n)` as used by `renderTiles` and the transition
`renderFrame` closures. -/
def chunkList (n : ℕ) (xs : List α) : List (List α) :=
  chunkListAux n xs xs.length

/-- Atlas event trace of one `Renderer.renderTiles` call with the given
texture capacity: `textureManager.clearTiles()` once, then for each
capacity-sized chunk all `addTile` insertions followed by that chunk's
single batched `drawTile` call. (The `regl.clear` canvas clear touches no
atlas state and is omitted.) -/
def renderTilesTrace (tileCapacity : ℕ) (tiles : List ℕ) : List AtlasEvent :=
  AtlasEvent.clearTiles ::
    ((chunkList tileCapacity tiles).map
      (fun c => c.map AtlasEvent.addTile ++ [AtlasEvent.draw])).flatten

/-- Atlas event trace, against the old-data `TextureManager`, of one
`renderFrame` invocation inside `renderTilesWithTransition` (the
new-data manager receives the mirror-image trace): the chunks are inserted
and drawn with no `clearTiles` at all. -/
def transitionFrameTrace (tileCapacity : ℕ) (tiles : List ℕ) : List AtlasEvent :=
  ((chunkList tileCapacity tiles).map
    (fun c => c.map AtlasEvent.addTile ++ [AtlasEvent.draw])).flatten

/-- Checker for the claimed atlas contract: scanning the trace, the number
of `addTile` events since the most recent `clearTiles` never exceeds
`cap` (draw calls do not reset the count). -/
def insertsSinceClearOK (cap : ℕ) : ℕ → List AtlasEvent → Bool
  | _, [] => true
  | _, AtlasEvent.clearTiles :: rest => insertsSinceClearOK cap 0 rest
  | count, AtlasEvent.addTile _ :: rest =>
    count + 1 ≤ cap && insertsSinceClearOK cap (count + 1) rest
  | count, AtlasEvent.draw :: rest => insertsSinceClearOK cap count rest

/-- Checker for the amended contract: every maximal run of consecutive
`addTile` events (i.e. the insertions between two successive draw calls or
clears) has length at most `cap`. -/
def insertRunsOK (cap : ℕ) : ℕ → List AtlasEvent → Bool
  | _, [] => true
  | count, AtlasEvent.addTile _ :: rest =>
    count + 1 ≤ cap && insertRunsOK cap (count + 1) rest
  | _, AtlasEvent.clearTiles :: rest => insertRunsOK cap 0 rest
  | _, AtlasEvent.draw :: rest => insertRunsOK cap 0 rest

/-! ## Helper lemmas -/

/-- The relative tolerance test accepts exact equality exactly when the
compared value is nonzero: `|v - v| = 0 < |v| / 10000` fails for `v = 0`. -/
theorem isCloseEnough_self {v : ℚ} (hv : v ≠ 0) : isCloseEnough v v = true := by
  simp only [isCloseEnough, sub_self, abs_zero, decide_eq_true_eq, abs_pos]
  exact mul_ne_zero hv (by norm_num [RELATIVE_TOLERANCE])

/-- Reading a configured uniform entry. -/
theorem getStop_lt (l : List ScaleStop) (i : ℕ) (h : i < l.length) :
    getStop l i = l.get ⟨i, h⟩ := by
  simp [getStop, List.getD_eq_getElem?_getD, List.getElem?_eq_getElem h]

/-- Reading an unbound uniform entry yields the inert default stop. -/
theorem getStop_ge (l : List ScaleStop) (i : ℕ) (h : l.length ≤ i) :
    getStop l i = DEFAULT_COLOR_STOP := by
  simp [getStop, List.getD_eq_getElem?_getD, List.getElem?_eq_none h]

/-- `List.find?` returns the entry at the first index satisfying `p`. -/
theorem find?_first {α} (p : α → Bool) (l : List α) (j : ℕ) (hj : j < l.length)
    (hpj : p (l.get ⟨j, hj⟩) = true)
    (hmin : ∀ (k : ℕ) (hk : k < j), p (l.get ⟨k, Nat.lt_trans hk hj⟩) = false) :
    l.find? p = some (l.get ⟨j, hj⟩) := by
  induction l generalizing j with
  | nil => exact absurd hj (by simp)
  | cons a t ih =>
    cases j with
    | zero => simpa using List.find?_cons_of_pos t (by simpa using hpj)
    | succ j' =>
      have ha : p a = false := by simpa using hmin 0 (Nat.succ_pos j')
      rw [List.find?_cons_of_neg t (by simp [ha])]
      exact ih j' (by simpa using hj) (by simpa using hpj)
        (fun k hk => by simpa using hmin (k + 1) (by omega))

/-! ## C9: configuration fail-fast -/

/-- Claim C9: for every configuration in which `colorScale` and
`sentinelValues` are both empty, or in which either array exceeds its
maximum length (16), the component throws synchronously at configuration
time — in the constructor and in `updateOptions`, before any rendering
occurs (the models produce their renderer-creation / tile-update actions
only after the check passes) — and a configuration passing these checks
does not throw. -/
theorem config_fail_fast (cs sv : ℕ) (urlChanged : Bool) :
    ((constructorActions cs sv).isOk = true ↔
      ¬((cs = 0 ∧ sv = 0) ∨ SCALE_MAX_LENGTH < cs ∨ SENTINEL_VALUES_MAX_LENGTH < sv))
  ∧ ((updateOptionsActions cs sv urlChanged).isOk = true ↔
      ¬((cs = 0 ∧ sv = 0) ∨ SCALE_MAX_LENGTH < cs ∨ SENTINEL_VALUES_MAX_LENGTH < sv)) := by
  unfold constructorActions updateOptionsActions checkColorScaleAndSentinels
    SCALE_MAX_LENGTH SENTINEL_VALUES_MAX_LENGTH
  split_ifs <;> simp [Except.isOk, Except.toBool] <;> omega

/-! ## C8: Pixel Inspector classification -/

/-- Claim C8: `_getPixelValue` computes the byte offset as
`(row × tileWidth + col) × 4`, reads the 32-bit float there using the host
machine endianness flag, returns `undefined` iff that float equals the
configured no-data value exactly, otherwise the first configured
`SentinelValue` whose offset equals the float exactly, otherwise the raw
numeric value. -/
theorem getPixelValue_correct (pixelData : List ℕ) (tileSize x y : ℕ)
    (littleEndian : Bool) (nodataValue : ℚ) (sentinelValues : List SentinelValue)
    (v : ℚ)
    (hv : v = getFloat32 pixelData ((y * tileSize + x) * BYTES_PER_WORD) littleEndian) :
    (getPixelValue pixelData tileSize x y littleEndian nodataValue sentinelValues = none
      ↔ v = nodataValue)
  ∧ (∀ (j : ℕ) (hj : j < sentinelValues.length),
      (sentinelValues.get ⟨j, hj⟩).offset = v →
      (∀ (k : ℕ) (hk : k < j), (sentinelValues.get ⟨k, Nat.lt_trans hk hj⟩).offset ≠ v) →
      v ≠ nodataValue →
      getPixelValue pixelData tileSize x y littleEndian nodataValue sentinelValues
        = some (Sum.inr (sentinelValues.get ⟨j, hj⟩)))
  ∧ ((∀ s ∈ sentinelValues, s.offset ≠ v) → v ≠ nodataValue →
      getPixelValue pixelData tileSize x y littleEndian nodataValue sentinelValues
        = some (Sum.inl v)) := by
  refine ⟨?_, ?_, ?_⟩
  · simp only [getPixelValue, ← hv]
    split_ifs with h
    · simp [h]
    · split <;> simp [h]
  · intro j hj hoff hmin hne
    have hfind : sentinelValues.find? (fun s => s.offset = v) =
        some (sentinelValues.get ⟨j, hj⟩) :=
      find?_first _ _ j hj (by simpa using hoff)
        (fun k hk => by simpa using hmin k hk)
    simp only [getPixelValue, ← hv]
    rw [if_neg hne, hfind]
  · intro hnone hne
    have hfind : sentinelValues.find? (fun s => s.offset = v) = none :=
      List.find?_eq_none.mpr (fun s hs => by simp [hnone s hs])
    simp only [getPixelValue, ← hv]
    rw [if_neg hne, hfind]

/-! ## C2: single-scale mid-transition protocol -/

/-- Claim C2: in the value-interpolating transition shader, for every
interpolation fraction strictly between 0 and 1, the pixel is discarded iff
both decoded values are no-data; if exactly one is no-data, or either value
matches a sentinel, the two independently resolved colors (transparent
substituted for a no-data source) are mixed by the fraction; otherwise the
raw values are mixed and the mix is resolved once. -/
theorem interpolateValue_mid_protocol (f vA vB nodataValue : ℚ)
    (colorScale sentinelValues : List ScaleStop)
    (colorScaleLength sentinelValuesLength : ℕ)
    (h0 : 0 < f) (h1 : f < 1) :
    (interpolateValueMain f vA vB nodataValue colorScale sentinelValues
        colorScaleLength sentinelValuesLength = none
      ↔ isCloseEnough vA nodataValue = true ∧ isCloseEnough vB nodataValue = true)
  ∧ ((isCloseEnough vA nodataValue = true ∧ isCloseEnough vB nodataValue = false) ∨
     (isCloseEnough vA nodataValue = false ∧ isCloseEnough vB nodataValue = true) ∨
     (isCloseEnough vA nodataValue = false ∧ isCloseEnough vB nodataValue = false ∧
       (isSentinelValue sentinelValues sentinelValuesLength vA = true ∨
        isSentinelValue sentinelValues sentinelValuesLength vB = true)) →
      interpolateValueMain f vA vB nodataValue colorScale sentinelValues
        colorScaleLength sentinelValuesLength
        = some (mixVec4
            (if isCloseEnough vA nodataValue then TRANSPARENT
             else computeColor vA colorScale sentinelValues colorScaleLength
               sentinelValuesLength SCALE_MAX_LENGTH SENTINEL_MAX_LENGTH)
            (if isCloseEnough vB nodataValue then TRANSPARENT
             else computeColor vB colorScale sentinelValues colorScaleLength
               sentinelValuesLength SCALE_MAX_LENGTH SENTINEL_MAX_LENGTH)
            f))
  ∧ (isCloseEnough vA nodataValue = false → isCloseEnough vB nodataValue = false →
     isSentinelValue sentinelValues sentinelValuesLength vA = false →
     isSentinelValue sentinelValues sentinelValuesLength vB = false →
      interpolateValueMain f vA vB nodataValue colorScale sentinelValues
        colorScaleLength sentinelValuesLength
        = some (computeColor (mixQ vA vB f) colorScale sentinelValues
            colorScaleLength sentinelValuesLength SCALE_MAX_LENGTH SENTINEL_MAX_LENGTH)) := by
  have hf0 : ¬f ≤ 0 := by linarith
  have hf1 : ¬1 ≤ f := by linarith
  unfold interpolateValueMain
  rw [if_neg hf0, if_neg hf1]
  cases hA : isCloseEnough vA nodataValue <;>
    cases hB : isCloseEnough vB nodataValue <;>
    cases hSA : isSentinelValue sentinelValues sentinelValuesLength vA <;>
    cases hSB : isSentinelValue sentinelValues sentinelValuesLength vB <;>
    simp [hA, hB, hSA, hSB]

/-- Witness for C2 at fraction `1/2` on two plain data values (no no-data,
no sentinels): raw values are mixed, then resolved once. -/
theorem interpolateValue_mid_protocol_witness :
    ((0 : ℚ) < 1 / 2 ∧ (1 : ℚ) / 2 < 1)
  ∧ interpolateValueMain (1 / 2) 2 4 (-999999)
      [⟨⟨1, 0, 0, 1⟩, 0⟩, ⟨⟨0, 0, 1, 1⟩, 10⟩] [] 2 0
      = some (computeColor (mixQ 2 4 (1 / 2))
          [⟨⟨1, 0, 0, 1⟩, 0⟩, ⟨⟨0, 0, 1, 1⟩, 10⟩] [] 2 0
          SCALE_MAX_LENGTH SENTINEL_MAX_LENGTH) :=
  ⟨⟨by norm_num, by norm_num⟩,
    (interpolateValue_mid_protocol (1 / 2) 2 4 (-999999)
        [⟨⟨1, 0, 0, 1⟩, 0⟩, ⟨⟨0, 0, 1, 1⟩, 10⟩] [] 2 0
        (by norm_num) (by norm_num)).2.2
      (by norm_num [isCloseEnough, RELATIVE_TOLERANCE, abs, max_def])
      (by norm_num [isCloseEnough, RELATIVE_TOLERANCE, abs, max_def])
      rfl rfl⟩

/-! ## C4: no-data transparency (single-source render paths) -/

/-- Amended claim C4: in every single-source render path (the single-tile
fragment shader and the boundary branches of both transition shaders) a
pixel whose decoded value exactly equals a *nonzero* configured no-data
value is discarded. (For a no-data value of zero the relative-tolerance
test `|v - nodata| < |v| / 10000` admits no match at all, see the
counterexample.) -/
theorem nodata_discard_single_source (v nodataValue : ℚ) (hv : v = nodataValue)
    (h0 : nodataValue ≠ 0) (f w : ℚ)
    (colorScale sentinelValues scaleA sentsA scaleB sentsB : List ScaleStop)
    (slen stlen la sa lb sb : ℕ) :
    singleMain v nodataValue colorScale sentinelValues slen stlen = none
  ∧ (f ≤ 0 → interpolateValueMain f v w nodataValue colorScale sentinelValues
      slen stlen = none)
  ∧ (1 ≤ f → interpolateValueMain f w v nodataValue colorScale sentinelValues
      slen stlen = none)
  ∧ (f ≤ 0 → interpolateColorMain f v w nodataValue scaleA sentsA scaleB sentsB
      la sa lb sb = none)
  ∧ (1 ≤ f → interpolateColorMain f w v nodataValue scaleA sentsA scaleB sentsB
      la sa lb sb = none) := by
  subst hv
  have hc : isCloseEnough v v = true := isCloseEnough_self h0
  refine ⟨by simp [singleMain, hc], fun hf => by simp [interpolateValueMain, hf, hc],
    fun hf => ?_, fun hf => by simp [interpolateColorMain, hf, hc], fun hf => ?_⟩
  · have hf0 : ¬f ≤ 0 := by linarith
    simp [interpolateValueMain, hf0, hf, hc]
  · have hf0 : ¬f ≤ 0 := by linarith
    simp [interpolateColorMain, hf0, hf, hc]

/-- Witness for C4 at the demo configuration's no-data value `-999999`. -/
theorem nodata_discard_single_source_witness :
    ((-999999 : ℚ) ≠ 0)
  ∧ singleMain (-999999) (-999999) [⟨⟨1, 0, 0, 1⟩, 0⟩] [] 1 0 = none :=
  ⟨by norm_num,
    (nodata_discard_single_source (-999999) (-999999) rfl (by norm_num) 0 0
      [⟨⟨1, 0, 0, 1⟩, 0⟩] [] [] [] [] [] 1 0 0 0 0 0).1⟩

/-- Counterexample to C4 as stated: with a configured no-data value of `0`,
a pixel decoding exactly to `0` is *not* discarded by the single-tile
shader — it resolves to an opaque color (alpha 1). -/
theorem nodata_transparency_counterexample :
    singleMain 0 0 [⟨⟨1, 0, 0, 1⟩, -1⟩, ⟨⟨0, 0, 1, 1⟩, 1⟩] [] 2 0
      = some ⟨1 / 2, 0, 1 / 2, 1⟩
  ∧ (⟨1 / 2, 0, 1 / 2, 1⟩ : Vec4).w ≠ 0 := by
  constructor
  · norm_num [singleMain, isCloseEnough, RELATIVE_TOLERANCE, computeColor,
      scanSentinelsAux, scaleLoopAux, getStop, List.getD, mixVec4, mixQ,
      SCALE_MAX_LENGTH, SENTINEL_VALUES_MAX_LENGTH, DEFAULT_COLOR_STOP, TRANSPARENT]
  · norm_num

/-! ## C3: sentinel precedence -/

/-- When some sentinel's offset equals a nonzero `v` exactly, the sentinel
scan of `computeColor` finds a match (at or before that sentinel). -/
theorem scanSentinelsAux_finds (v : ℚ) (s : List ScaleStop) (len j : ℕ)
    (hjlen : j < len) (hjs : j < s.length)
    (hoff : (s.get ⟨j, hjs⟩).offset = v) (hv : v ≠ 0) :
    ∀ (fuel i : ℕ), i ≤ j → len ≤ i + fuel →
      ∃ c, scanSentinelsAux v s len i fuel = some c := by
  intro fuel
  induction fuel with
  | zero => intro i hij hfuel; omega
  | succ fuel ih =>
    intro i hij hfuel
    have hi : i ≠ len := by omega
    by_cases hm : isCloseEnough v (getStop s i).offset = true
    · exact ⟨(getStop s i).color, by simp [scanSentinelsAux, hi, hm]⟩
    · have hij' : i ≠ j := by
        intro h
        subst h
        rw [getStop_lt s i hjs, hoff] at hm
        exact hm (isCloseEnough_self hv)
      obtain ⟨c, hc⟩ := ih (i + 1) (by omega) (by omega)
      exact ⟨c, by simp [scanSentinelsAux, hi, hm, hc]⟩

/-- Amended claim C3: for every *nonzero* decoded value that exactly equals
a configured sentinel's offset and falls within the color scale's range,
`computeColor` returns the color found by the sentinel scan — the color of
the first sentinel whose offset matches the value within the relative
tolerance — and never the color interpolated from the scale. (The
counterexample forces both restrictions: a zero value matches no sentinel
under the relative tolerance, and an earlier sentinel within tolerance
preempts the exactly-equal one.) -/
theorem computeColor_sentinel_precedence (v : ℚ)
    (colorScale sentinelValues : List ScaleStop) (colorScaleLength : ℕ)
    (hv : v ≠ 0) (hlen : sentinelValues.length ≤ SENTINEL_VALUES_MAX_LENGTH)
    (j : ℕ) (hj : j < sentinelValues.length)
    (hoff : (sentinelValues.get ⟨j, hj⟩).offset = v)
    (_hlow : (getStop colorScale 0).offset ≤ v)
    (_hhigh : v ≤ (getStop colorScale (colorScaleLength - 1)).offset) :
    ∃ c, scanSentinelsAux v sentinelValues sentinelValues.length 0
          SENTINEL_VALUES_MAX_LENGTH = some c
      ∧ computeColor v colorScale sentinelValues colorScaleLength
          sentinelValues.length SCALE_MAX_LENGTH SENTINEL_VALUES_MAX_LENGTH = c := by
  obtain ⟨c, hc⟩ := scanSentinelsAux_finds v sentinelValues sentinelValues.length j
    hj hj hoff hv SENTINEL_VALUES_MAX_LENGTH 0 (Nat.zero_le j) (by omega)
  exact ⟨c, hc, by simp [computeColor, hc]⟩

/-- Witness for C3: value `42` exactly equals the single sentinel's offset
and lies inside the scale range `[0, 100]`; the resolver returns the
sentinel's green. -/
theorem computeColor_sentinel_precedence_witness :
    ∃ c, scanSentinelsAux 42 [⟨⟨0, 1, 0, 1⟩, 42⟩] 1 0
          SENTINEL_VALUES_MAX_LENGTH = some c
      ∧ computeColor 42 [⟨⟨0, 0, 0, 1⟩, 0⟩, ⟨⟨0, 0, 1, 1⟩, 100⟩] [⟨⟨0, 1, 0, 1⟩, 42⟩]
          2 1 SCALE_MAX_LENGTH SENTINEL_VALUES_MAX_LENGTH = c := by
  have h := computeColor_sentinel_precedence 42
    [⟨⟨0, 0, 0, 1⟩, 0⟩, ⟨⟨0, 0, 1, 1⟩, 100⟩] [⟨⟨0, 1, 0, 1⟩, 42⟩] 2
    (by norm_num) (by simp [SENTINEL_VALUES_MAX_LENGTH]) 0 (by simp) rfl
    (by norm_num [getStop, List.getD]) (by norm_num [getStop, List.getD])
  simpa using h

/-- Counterexample to C3 as stated: (a) the value `0` exactly equals a
configured sentinel's offset `0` and lies within the scale range, yet
`computeColor` returns the interpolated scale color, not the sentinel's
green, because `|0 - 0| < |0| / 10000` fails; (b) the value `1` exactly
equals the second sentinel's offset, yet the resolver returns the *first*
sentinel's color, whose offset `1 + 1/100000` merely matches within the
relative tolerance. -/
theorem computeColor_sentinel_precedence_counterexample :
    (computeColor 0 [⟨⟨0, 0, 0, 1⟩, -10⟩, ⟨⟨0, 0, 1, 1⟩, 10⟩] [⟨⟨0, 1, 0, 1⟩, 0⟩] 2 1
        SCALE_MAX_LENGTH SENTINEL_VALUES_MAX_LENGTH = ⟨0, 0, 1 / 2, 1⟩
      ∧ (⟨0, 0, 1 / 2, 1⟩ : Vec4) ≠ ⟨0, 1, 0, 1⟩)
  ∧ (computeColor 1 [⟨⟨0, 0, 0, 1⟩, -10⟩, ⟨⟨0, 0, 1, 1⟩, 10⟩]
        [⟨⟨1, 0, 0, 1⟩, 1 + 1 / 100000⟩, ⟨⟨0, 1, 0, 1⟩, 1⟩] 2 2
        SCALE_MAX_LENGTH SENTINEL_VALUES_MAX_LENGTH = ⟨1, 0, 0, 1⟩
      ∧ (⟨1, 0, 0, 1⟩ : Vec4) ≠ ⟨0, 1, 0, 1⟩) := by
  refine ⟨⟨?_, by simp⟩, ⟨?_, by simp⟩⟩ <;>
    norm_num [computeColor, scanSentinelsAux, scaleLoopAux, isCloseEnough,
      RELATIVE_TOLERANCE, abs, max_def, getStop, List.getD, mixVec4, mixQ,
      SCALE_MAX_LENGTH, SENTINEL_VALUES_MAX_LENGTH]

/-! ## C5: scale clamping -/

/-- Upper-clamp run of the scale loop: when the input exceeds every
configured stop's offset, is positive (so it also exceeds the zero-offset
padding entry read at index `colorScaleLength`), and the loop has fuel left
to reach `i = colorScaleLength`, it returns the last configured stop's
color. -/
theorem scaleLoopAux_clamp (v : ℚ) (colorScale : List ScaleStop)
    (hpos : 0 < v) (habove : ∀ s ∈ colorScale, s.offset < v) :
    ∀ (fuel i : ℕ), i ≤ colorScale.length → colorScale.length < i + fuel →
      scaleLoopAux v colorScale colorScale.length i fuel
        = (getStop colorScale (colorScale.length - 1)).color := by
  intro fuel
  induction fuel with
  | zero => intro i hi hfuel; omega
  | succ fuel ih =>
    intro i hi hfuel
    by_cases hil : i = colorScale.length
    · simp [scaleLoopAux, hil]
    · have hlt : i < colorScale.length := by omega
      have hnext : ¬v ≤ (getStop colorScale (i + 1)).offset := by
        by_cases hend : i + 1 < colorScale.length
        · rw [getStop_lt colorScale (i + 1) hend]
          exact not_le.mpr (habove _ (List.get_mem _ _ _))
        · have : colorScale.length ≤ i + 1 := by omega
          rw [getStop_ge colorScale (i + 1) this]
          simpa [DEFAULT_COLOR_STOP, TRANSPARENT] using hpos
      rw [show scaleLoopAux v colorScale colorScale.length i (fuel + 1)
            = scaleLoopAux v colorScale colorScale.length (i + 1) fuel by
          simp [scaleLoopAux, hil, hnext]]
      exact ih (i + 1) (by omega) (by omega)

/-- Amended claim C5: provided no sentinel matches the input within the
relative tolerance, (lower) for every input below the first stop's offset
`computeColor` returns the first stop's color unchanged, and (upper) for
every *positive* input above every stop's offset, with *fewer than 16*
stops, it returns the last stop's color unchanged. (The counterexample
forces the restrictions: a sentinel match preempts clamping, and for a
scale whose top offset is negative the loop interpolates into the
zero-offset transparent padding entry instead of clamping; with a full
16-stop scale the loop would read past the uniform array.) -/
theorem computeColor_clamp (v : ℚ) (colorScale sentinelValues : List ScaleStop)
    (sentinelValuesLength : ℕ)
    (hscan : scanSentinelsAux v sentinelValues sentinelValuesLength 0
      SENTINEL_VALUES_MAX_LENGTH = none)
    (hne : colorScale ≠ []) :
    (v < (getStop colorScale 0).offset →
      computeColor v colorScale sentinelValues colorScale.length
        sentinelValuesLength SCALE_MAX_LENGTH SENTINEL_VALUES_MAX_LENGTH
        = (getStop colorScale 0).color)
  ∧ (0 < v → (∀ s ∈ colorScale, s.offset < v) →
      colorScale.length < SCALE_MAX_LENGTH →
      computeColor v colorScale sentinelValues colorScale.length
        sentinelValuesLength SCALE_MAX_LENGTH SENTINEL_VALUES_MAX_LENGTH
        = (getStop colorScale (colorScale.length - 1)).color) := by
  constructor
  · intro hbelow
    simp [computeColor, hscan, hbelow]
  · intro hpos habove hlen
    have hnotbelow : ¬v < (getStop colorScale 0).offset := by
      have h0 : 0 < colorScale.length := List.length_pos.mpr hne
      rw [getStop_lt colorScale 0 h0]
      exact not_lt.mpr (le_of_lt (habove _ (List.get_mem _ _ _)))
    rw [computeColor, hscan]
    simp only [hnotbelow, if_false]
    exact scaleLoopAux_clamp v colorScale hpos habove SCALE_MAX_LENGTH 0
      (Nat.zero_le _) (by omega)

/-- Witness for C5 on a two-stop scale `[10, 20]` with no sentinels: input
`5` clamps to the first stop's color, input `25` clamps to the last
stop's color. -/
theorem computeColor_clamp_witness :
    computeColor 5 [⟨⟨1, 0, 0, 1⟩, 10⟩, ⟨⟨0, 0, 1, 1⟩, 20⟩] [] 2 0
        SCALE_MAX_LENGTH SENTINEL_VALUES_MAX_LENGTH = ⟨1, 0, 0, 1⟩
  ∧ computeColor 25 [⟨⟨1, 0, 0, 1⟩, 10⟩, ⟨⟨0, 0, 1, 1⟩, 20⟩] [] 2 0
        SCALE_MAX_LENGTH SENTINEL_VALUES_MAX_LENGTH = ⟨0, 0, 1, 1⟩ := by
  have hscan : scanSentinelsAux (5 : ℚ) [] 0 0 SENTINEL_VALUES_MAX_LENGTH = none := by
    simp [scanSentinelsAux, SENTINEL_VALUES_MAX_LENGTH]
  have hscan' : scanSentinelsAux (25 : ℚ) [] 0 0 SENTINEL_VALUES_MAX_LENGTH = none := by
    simp [scanSentinelsAux, SENTINEL_VALUES_MAX_LENGTH]
  constructor
  · have h := (computeColor_clamp 5 [⟨⟨1, 0, 0, 1⟩, 10⟩, ⟨⟨0, 0, 1, 1⟩, 20⟩] [] 0
      hscan (by simp)).1 (by norm_num [getStop, List.getD])
    simpa [getStop, List.getD] using h
  · have h := (computeColor_clamp 25 [⟨⟨1, 0, 0, 1⟩, 10⟩, ⟨⟨0, 0, 1, 1⟩, 20⟩] [] 0
      hscan' (by simp)).2 (by norm_num)
      (by
        intro s hs
        simp only [List.mem_cons, List.mem_singleton] at hs
        rcases hs with h | h | h <;> first | (subst h; norm_num) | cases h)
      (by simp [SCALE_MAX_LENGTH])
    simpa [getStop, List.getD] using h

/-- Counterexample to C5 as stated: (a) input `1` lies below the first
stop's offset `2`, but a sentinel at offset `1` preempts clamping and red
is returned instead of the first stop's color; (b) input `-1` lies above
the last stop's offset `-3` of an all-negative two-stop scale, yet the
loop interpolates between the last stop and the transparent zero-offset
padding entry, returning a one-third-faded color instead of the last
stop's opaque white. -/
theorem computeColor_clamp_counterexample :
    (computeColor 1 [⟨⟨0, 0, 0, 1⟩, 2⟩, ⟨⟨0, 0, 1, 1⟩, 3⟩] [⟨⟨1, 0, 0, 1⟩, 1⟩] 2 1
        SCALE_MAX_LENGTH SENTINEL_VALUES_MAX_LENGTH = ⟨1, 0, 0, 1⟩
      ∧ (⟨1, 0, 0, 1⟩ : Vec4) ≠ ⟨0, 0, 0, 1⟩)
  ∧ (computeColor (-1) [⟨⟨1, 1, 1, 1⟩, -5⟩, ⟨⟨1, 1, 1, 1⟩, -3⟩] [] 2 0
        SCALE_MAX_LENGTH SENTINEL_VALUES_MAX_LENGTH = ⟨1 / 3, 1 / 3, 1 / 3, 1 / 3⟩
      ∧ (⟨1 / 3, 1 / 3, 1 / 3, 1 / 3⟩ : Vec4) ≠ ⟨1, 1, 1, 1⟩) := by
  refine ⟨⟨?_, by simp⟩, ⟨?_, by simp⟩⟩ <;>
    norm_num [computeColor, scanSentinelsAux, scaleLoopAux, isCloseEnough,
      RELATIVE_TOLERANCE, abs, max_def, getStop, List.getD, mixVec4, mixQ,
      SCALE_MAX_LENGTH, SENTINEL_VALUES_MAX_LENGTH, DEFAULT_COLOR_STOP, TRANSPARENT]

/-! ## C6: transition boundary equivalence -/

/-- The sentinel scan result does not depend on the loop bound
(`SENTINEL_MAX_LENGTH` macro value), as long as the bound leaves enough
iterations to reach the `i == sentinelValuesLength` break. -/
theorem scanSentinelsAux_fuel (v : ℚ) (s : List ScaleStop) (len : ℕ) :
    ∀ (fuel fuel' i : ℕ), i ≤ len → len ≤ i + fuel → len ≤ i + fuel' →
      scanSentinelsAux v s len i fuel = scanSentinelsAux v s len i fuel' := by
  intro fuel
  induction fuel with
  | zero =>
    intro fuel' i hi hf hf'
    have : i = len := by omega
    cases fuel' <;> simp [scanSentinelsAux, this]
  | succ fuel ih =>
    intro fuel' i hi hf hf'
    by_cases hil : i = len
    · cases fuel' <;> simp [scanSentinelsAux, hil]
    · cases fuel' with
      | zero => omega
      | succ fuel'' =>
        by_cases hm : isCloseEnough v (getStop s i).offset = true
        · simp [scanSentinelsAux, hil, hm]
        · have step : ∀ n, scanSentinelsAux v s len i (n + 1)
              = scanSentinelsAux v s len (i + 1) n := by
            intro n
            simp [scanSentinelsAux, hil, hm]
          rw [step fuel, step fuel'']
          exact ih fuel'' (i + 1) (by omega) (by omega) (by omega)

/-- `computeColor` is insensitive to the `SENTINEL_MAX_LENGTH` macro value
whenever the configured sentinel count stays within both bounds. -/
theorem computeColor_sentinelCap (v : ℚ) (colorScale sentinelValues : List ScaleStop)
    (colorScaleLength sentinelValuesLength scaleCap c1 c2 : ℕ)
    (h1 : sentinelValuesLength ≤ c1) (h2 : sentinelValuesLength ≤ c2) :
    computeColor v colorScale sentinelValues colorScaleLength sentinelValuesLength
        scaleCap c1
      = computeColor v colorScale sentinelValues colorScaleLength sentinelValuesLength
          scaleCap c2 := by
  unfold computeColor
  rw [scanSentinelsAux_fuel v sentinelValues sentinelValuesLength c1 c2 0
    (Nat.zero_le _) (by omega) (by omega)]

/-- Amended claim C6: with at most `SENTINEL_MAX_LENGTH = 4` configured
sentinel values, both transition shaders at interpolation fraction 0 (the
`f <= 0` branch) produce per-pixel output identical — including discards —
to the single-source shader on the old data (and, for the dual-scale
variant, the old scale and sentinels), and at fraction 1 (the `f >= 1`
branch) to the single-source shader on the new data (new scale/sentinels
for the dual-scale variant). (The counterexample forces the sentinel-count
restriction: with five sentinels the transition shaders' 4-entry cap drops
the fifth, while the single-source shader honors it. The dual-scale shader
is modelled with its `computeColor` arguments matched by name, as its call
sites list them in an order inconsistent with the declared signature in
`util/computeColor.glsl`.) -/
theorem transition_boundary_equiv (f vA vB nodataValue : ℚ)
    (colorScale sentinelValues scaleA sentsA scaleB sentsB : List ScaleStop)
    (colorScaleLength lenA lenB : ℕ)
    (hs : sentinelValues.length ≤ SENTINEL_MAX_LENGTH)
    (hsA : sentsA.length ≤ SENTINEL_MAX_LENGTH)
    (hsB : sentsB.length ≤ SENTINEL_MAX_LENGTH) :
    (f ≤ 0 → interpolateValueMain f vA vB nodataValue colorScale sentinelValues
        colorScaleLength sentinelValues.length
      = singleMain vA nodataValue colorScale sentinelValues colorScaleLength
          sentinelValues.length)
  ∧ (1 ≤ f → interpolateValueMain f vA vB nodataValue colorScale sentinelValues
        colorScaleLength sentinelValues.length
      = singleMain vB nodataValue colorScale sentinelValues colorScaleLength
          sentinelValues.length)
  ∧ (f ≤ 0 → interpolateColorMain f vA vB nodataValue scaleA sentsA scaleB sentsB
        lenA sentsA.length lenB sentsB.length
      = singleMain vA nodataValue scaleA sentsA lenA sentsA.length)
  ∧ (1 ≤ f → interpolateColorMain f vA vB nodataValue scaleA sentsA scaleB sentsB
        lenA sentsA.length lenB sentsB.length
      = singleMain vB nodataValue scaleB sentsB lenB sentsB.length) := by
  have hcap : SENTINEL_MAX_LENGTH ≤ SENTINEL_VALUES_MAX_LENGTH := by
    norm_num [SENTINEL_MAX_LENGTH, SENTINEL_VALUES_MAX_LENGTH]
  refine ⟨fun hf => ?_, fun hf => ?_, fun hf => ?_, fun hf => ?_⟩
  · simp only [interpolateValueMain, singleMain, if_pos hf]
    rw [computeColor_sentinelCap vA colorScale sentinelValues colorScaleLength
      sentinelValues.length SCALE_MAX_LENGTH SENTINEL_MAX_LENGTH
      SENTINEL_VALUES_MAX_LENGTH hs (le_trans hs hcap)]
  · have hf0 : ¬f ≤ 0 := by linarith
    simp only [interpolateValueMain, singleMain, if_neg hf0, if_pos hf]
    rw [computeColor_sentinelCap vB colorScale sentinelValues colorScaleLength
      sentinelValues.length SCALE_MAX_LENGTH SENTINEL_MAX_LENGTH
      SENTINEL_VALUES_MAX_LENGTH hs (le_trans hs hcap)]
  · simp only [interpolateColorMain, singleMain, if_pos hf]
    rw [computeColor_sentinelCap vA scaleA sentsA lenA sentsA.length
      SCALE_MAX_LENGTH SENTINEL_MAX_LENGTH SENTINEL_VALUES_MAX_LENGTH hsA
      (le_trans hsA hcap)]
  · have hf0 : ¬f ≤ 0 := by linarith
    simp only [interpolateColorMain, singleMain, if_neg hf0, if_pos hf]
    rw [computeColor_sentinelCap vB scaleB sentsB lenB sentsB.length
      SCALE_MAX_LENGTH SENTINEL_MAX_LENGTH SENTINEL_VALUES_MAX_LENGTH hsB
      (le_trans hsB hcap)]

/-- Witness for C6: with a single sentinel the value-interpolating shader at
fraction 0 agrees with the single-source shader on the A value. -/
theorem transition_boundary_equiv_witness :
    interpolateValueMain 0 3 9 (-1) [⟨⟨1, 1, 1, 1⟩, 0⟩] [⟨⟨1, 0, 0, 1⟩, 7⟩] 1 1
      = singleMain 3 (-1) [⟨⟨1, 1, 1, 1⟩, 0⟩] [⟨⟨1, 0, 0, 1⟩, 7⟩] 1 1 := by
  have h := (transition_boundary_equiv 0 3 9 (-1) [⟨⟨1, 1, 1, 1⟩, 0⟩]
    [⟨⟨1, 0, 0, 1⟩, 7⟩] [] [] [] [] 1 0 0
    (by simp [SENTINEL_MAX_LENGTH]) (by simp [SENTINEL_MAX_LENGTH])
    (by simp [SENTINEL_MAX_LENGTH])).1 le_rfl
  simpa using h

/-- Counterexample to C6 as stated: with five configured sentinels, at
fraction 0 the value-interpolating transition shader misses the fifth
sentinel (its loops stop at `SENTINEL_MAX_LENGTH = 4`) and interpolates
the scale, while the single-source shader (capped at 16) returns the
fifth sentinel's green — so the outputs differ on the same old data. -/
theorem transition_boundary_counterexample :
    interpolateValueMain 0 50 0 (-999999)
        [⟨⟨0, 0, 1, 1⟩, 0⟩, ⟨⟨0, 0, 1, 1⟩, 100⟩]
        [⟨⟨1, 0, 0, 1⟩, 10⟩, ⟨⟨1, 0, 0, 1⟩, 20⟩, ⟨⟨1, 0, 0, 1⟩, 30⟩,
         ⟨⟨1, 0, 0, 1⟩, 40⟩, ⟨⟨0, 1, 0, 1⟩, 50⟩] 2 5
      = some ⟨0, 0, 1, 1⟩
  ∧ singleMain 50 (-999999)
        [⟨⟨0, 0, 1, 1⟩, 0⟩, ⟨⟨0, 0, 1, 1⟩, 100⟩]
        [⟨⟨1, 0, 0, 1⟩, 10⟩, ⟨⟨1, 0, 0, 1⟩, 20⟩, ⟨⟨1, 0, 0, 1⟩, 30⟩,
         ⟨⟨1, 0, 0, 1⟩, 40⟩, ⟨⟨0, 1, 0, 1⟩, 50⟩] 2 5
      = some ⟨0, 1, 0, 1⟩
  ∧ some (⟨0, 0, 1, 1⟩ : Vec4) ≠ some (⟨0, 1, 0, 1⟩ : Vec4) := by
  refine ⟨?_, ?_, by simp⟩ <;>
    norm_num [interpolateValueMain, singleMain, computeColor, scanSentinelsAux,
      scaleLoopAux, isCloseEnough, RELATIVE_TOLERANCE, abs, max_def, getStop,
      List.getD, mixVec4, mixQ, SCALE_MAX_LENGTH, SENTINEL_VALUES_MAX_LENGTH,
      SENTINEL_MAX_LENGTH]

/-! ## C10: transition shaders read only the first 4 sentinels -/

/-- Uniform-array reads below a common prefix length agree. -/
theorem getStop_take (s t : List ScaleStop) (n j : ℕ)
    (h : s.take n = t.take n) (hj : j < n) : getStop s j = getStop t j := by
  have h1 : (s.take n)[j]? = s[j]? := by rw [List.getElem?_take, if_pos hj]
  have h2 : (t.take n)[j]? = t[j]? := by rw [List.getElem?_take, if_pos hj]
  have hs : s[j]? = t[j]? := by rw [← h1, ← h2, h]
  simp [getStop, List.getD_eq_getElem?_getD, hs]

/-- The sentinel scan depends only on the first `n` entries when its loop
bound is at most `n`. -/
theorem scanSentinelsAux_take (v : ℚ) (len n : ℕ) (s t : List ScaleStop)
    (h : s.take n = t.take n) :
    ∀ (fuel i : ℕ), i + fuel ≤ n →
      scanSentinelsAux v s len i fuel = scanSentinelsAux v t len i fuel := by
  intro fuel
  induction fuel with
  | zero => intro i _; rfl
  | succ fuel ih =>
    intro i hle
    have hstop := getStop_take s t n i h (by omega)
    by_cases hil : i = len
    · simp [scanSentinelsAux, hil]
    · simp only [scanSentinelsAux, hil, if_false, ite_false]
      rw [hstop, ih (i + 1) (by omega)]

/-- `isSentinelValue`'s loop likewise depends only on the first `n` entries
when its bound is at most `n`. -/
theorem isSentinelValueAux_take (value : ℚ) (len n : ℕ) (s t : List ScaleStop)
    (h : s.take n = t.take n) :
    ∀ (fuel i : ℕ), i + fuel ≤ n →
      isSentinelValueAux s len value i fuel = isSentinelValueAux t len value i fuel := by
  intro fuel
  induction fuel with
  | zero => intro i _; rfl
  | succ fuel ih =>
    intro i hle
    have hstop := getStop_take s t n i h (by omega)
    by_cases hil : i = len
    · simp [isSentinelValueAux, hil]
    · simp only [isSentinelValueAux, hil, if_false, ite_false]
      rw [hstop, ih (i + 1) (by omega)]

/-- `computeColor` instantiated with sentinel cap at most `n` depends only
on the first `n` sentinel entries. -/
theorem computeColor_take (v : ℚ) (colorScale : List ScaleStop)
    (colorScaleLength sentinelValuesLength scaleCap cap n : ℕ)
    (s t : List ScaleStop) (h : s.take n = t.take n) (hcap : cap ≤ n) :
    computeColor v colorScale s colorScaleLength sentinelValuesLength scaleCap cap
      = computeColor v colorScale t colorScaleLength sentinelValuesLength scaleCap cap := by
  unfold computeColor
  rw [scanSentinelsAux_take v sentinelValuesLength n s t h cap 0 (by omega)]

/-- Claim C10: both transition fragment shaders fix their sentinel capacity
at `SENTINEL_MAX_LENGTH = 4` while the component accepts and binds up to
`SENTINEL_VALUES_MAX_LENGTH = 16` sentinel values (the configuration check
passes at 16); consequently, during transition rendering the per-pixel
output depends only on the first 4 sentinel entries — two sentinel lists
agreeing on their first 4 entries (and declared length) render
identically, whichever source they color, so entries beyond the fourth
never affect any transition frame. -/
theorem transition_sentinel_capacity (f vA vB nodataValue : ℚ)
    (colorScale scaleA scaleB : List ScaleStop) (colorScaleLength lenA lenB : ℕ)
    (s t u : List ScaleStop)
    (h4 : s.take SENTINEL_MAX_LENGTH = t.take SENTINEL_MAX_LENGTH)
    (hlen : s.length = t.length) :
    SENTINEL_MAX_LENGTH = 4
  ∧ SENTINEL_VALUES_MAX_LENGTH = 16
  ∧ checkColorScaleAndSentinels 1 SENTINEL_VALUES_MAX_LENGTH = Except.ok ()
  ∧ interpolateValueMain f vA vB nodataValue colorScale s colorScaleLength s.length
      = interpolateValueMain f vA vB nodataValue colorScale t colorScaleLength t.length
  ∧ interpolateColorMain f vA vB nodataValue scaleA s scaleB u lenA s.length lenB u.length
      = interpolateColorMain f vA vB nodataValue scaleA t scaleB u lenA t.length lenB u.length
  ∧ interpolateColorMain f vA vB nodataValue scaleA u scaleB s lenA u.length lenB s.length
      = interpolateColorMain f vA vB nodataValue scaleA u scaleB t lenA u.length lenB t.length := by
  have hcc : ∀ (w : ℚ) (scale : List ScaleStop) (sl ln : ℕ),
      computeColor w scale s sl ln SCALE_MAX_LENGTH SENTINEL_MAX_LENGTH
        = computeColor w scale t sl ln SCALE_MAX_LENGTH SENTINEL_MAX_LENGTH :=
    fun w scale sl ln => computeColor_take w scale sl ln SCALE_MAX_LENGTH
      SENTINEL_MAX_LENGTH SENTINEL_MAX_LENGTH s t h4 le_rfl
  have hsv : ∀ (w : ℚ) (ln : ℕ), isSentinelValue s ln w = isSentinelValue t ln w :=
    fun w ln => isSentinelValueAux_take w ln SENTINEL_MAX_LENGTH s t h4
      SENTINEL_MAX_LENGTH 0 (by omega)
  refine ⟨rfl, rfl, rfl, ?_, ?_, ?_⟩
  · rw [hlen]
    unfold interpolateValueMain
    simp only [hcc, hsv]
  · rw [hlen]
    unfold interpolateColorMain
    simp only [hcc]
  · rw [hlen]
    unfold interpolateColorMain
    simp only [hcc]

/-- Witness for C10: two five-entry sentinel lists differing only in the
fifth entry's color produce identical transition-shader output. -/
theorem transition_sentinel_capacity_witness :
    SENTINEL_MAX_LENGTH = 4
  ∧ SENTINEL_VALUES_MAX_LENGTH = 16
  ∧ checkColorScaleAndSentinels 1 SENTINEL_VALUES_MAX_LENGTH = Except.ok ()
  ∧ interpolateValueMain (1 / 2) 50 60 (-999999) [⟨⟨0, 0, 1, 1⟩, 0⟩]
      [⟨⟨1, 0, 0, 1⟩, 10⟩, ⟨⟨1, 0, 0, 1⟩, 20⟩, ⟨⟨1, 0, 0, 1⟩, 30⟩,
       ⟨⟨1, 0, 0, 1⟩, 40⟩, ⟨⟨0, 1, 0, 1⟩, 50⟩] 1 5
      = interpolateValueMain (1 / 2) 50 60 (-999999) [⟨⟨0, 0, 1, 1⟩, 0⟩]
          [⟨⟨1, 0, 0, 1⟩, 10⟩, ⟨⟨1, 0, 0, 1⟩, 20⟩, ⟨⟨1, 0, 0, 1⟩, 30⟩,
           ⟨⟨1, 0, 0, 1⟩, 40⟩, ⟨⟨1, 1, 0, 1⟩, 50⟩] 1 5 := by
  have h := transition_sentinel_capacity (1 / 2) 50 60 (-999999)
    ([⟨⟨0, 0, 1, 1⟩, 0⟩] : List ScaleStop) [] [] 1 0 0
    ([⟨⟨1, 0, 0, 1⟩, 10⟩, ⟨⟨1, 0, 0, 1⟩, 20⟩, ⟨⟨1, 0, 0, 1⟩, 30⟩,
      ⟨⟨1, 0, 0, 1⟩, 40⟩, ⟨⟨0, 1, 0, 1⟩, 50⟩] : List ScaleStop)
    ([⟨⟨1, 0, 0, 1⟩, 10⟩, ⟨⟨1, 0, 0, 1⟩, 20⟩, ⟨⟨1, 0, 0, 1⟩, 30⟩,
      ⟨⟨1, 0, 0, 1⟩, 40⟩, ⟨⟨1, 1, 0, 1⟩, 50⟩] : List ScaleStop)
    [] rfl rfl
  exact ⟨h.1, h.2.1, h.2.2.1, h.2.2.2.1⟩

/-! ## C7: atlas chunking contract -/

/-- Every chunk produced by lodash `chunk` has length at most the chunk
size. -/
theorem chunkListAux_length_le {α} (n : ℕ) :
    ∀ (fuel : ℕ) (xs c : List α), c ∈ chunkListAux n xs fuel → c.length ≤ n := by
  intro fuel
  induction fuel with
  | zero => intro xs c hc; cases xs <;> simp [chunkListAux] at hc
  | succ fuel ih =>
    intro xs c hc
    cases xs with
    | nil => simp [chunkListAux] at hc
    | cons a l =>
      by_cases hn : n = 0
      · simp [chunkListAux, hn] at hc
      · simp only [chunkListAux, hn, if_false, ite_false, List.mem_cons] at hc
        rcases hc with rfl | hc
        · simp only [List.length_take]
          exact Nat.min_le_left n (a :: l).length
        · exact ih _ c hc

/-- With a positive chunk size and enough fuel, the chunks concatenate back
to the original list: chunking loses and reorders nothing. -/
theorem chunkListAux_flatten {α} (n : ℕ) (hn : 0 < n) :
    ∀ (fuel : ℕ) (xs : List α), xs.length ≤ fuel →
      (chunkListAux n xs fuel).flatten = xs := by
  intro fuel
  induction fuel with
  | zero =>
    intro xs h
    cases xs with
    | nil => rfl
    | cons a l => simp at h
  | succ fuel ih =>
    intro xs h
    cases xs with
    | nil => rfl
    | cons a l =>
      have hn' : n ≠ 0 := by omega
      simp only [chunkListAux, hn', if_false, ite_false, List.flatten_cons]
      rw [ih ((a :: l).drop n) (by rw [List.length_drop]; simp at h ⊢; omega)]
      exact List.take_append_drop n (a :: l)

/-- Scanning a block of `addTile` events advances the run counter by the
block's length, provided the capacity is not exceeded. -/
theorem insertRunsOK_adds (cap : ℕ) (c : List ℕ) :
    ∀ (count : ℕ) (rest : List AtlasEvent), count + c.length ≤ cap →
      insertRunsOK cap count (c.map AtlasEvent.addTile ++ rest)
        = insertRunsOK cap (count + c.length) rest := by
  induction c with
  | nil => intro count rest _; simp [insertRunsOK]
  | cons a c ih =>
    intro count rest h
    have h1 : count + 1 ≤ cap := by simp only [List.length_cons] at h; omega
    simp only [List.map_cons, List.cons_append, insertRunsOK, List.length_cons]
    rw [decide_eq_true h1, Bool.true_and]
    simp only [List.append_eq]
    rw [ih (count + 1) rest (by simp only [List.length_cons] at h; omega)]
    have harith : count + 1 + c.length = count + (c.length + 1) := by omega
    rw [harith]

/-- A trace made of capacity-bounded chunks, each a block of insertions
followed by one draw call, keeps every insertion run within capacity. -/
theorem insertRunsOK_chunks (cap : ℕ) :
    ∀ (chunks : List (List ℕ)), (∀ c ∈ chunks, c.length ≤ cap) →
      insertRunsOK cap 0 ((chunks.map
        (fun c => c.map AtlasEvent.addTile ++ [AtlasEvent.draw])).flatten) = true := by
  intro chunks
  induction chunks with
  | nil => intro _; rfl
  | cons c cs ih =>
    intro h
    simp only [List.map_cons, List.flatten_cons, List.append_assoc]
    rw [insertRunsOK_adds cap c 0 _ (by
      have := h c (by simp)
      omega)]
    simp only [List.singleton_append, insertRunsOK]
    exact ih (fun d hd => h d (List.mem_cons_of_mem _ hd))

/-- Amended claim C7: in every `renderTiles` call and every transition
frame, the tiles are split into chunks of at most `tileCapacity`, the
chunks concatenate back to the full tile list in order, and each chunk's
insertions (a run of at most `tileCapacity` consecutive `addTile` events)
complete before that chunk's draw call. `renderTiles` clears the atlas
once, at the start; no `clearTiles` intervenes between chunks, and
transition frames never clear at all, so the count of insertions since the
last `clearTiles` does exceed `tileCapacity` whenever more than one chunk
is rendered (see the counterexample). -/
theorem renderTiles_chunking (tileCapacity : ℕ) (tiles : List ℕ)
    (hcap : 0 < tileCapacity) :
    (∀ c ∈ chunkList tileCapacity tiles, c.length ≤ tileCapacity)
  ∧ (chunkList tileCapacity tiles).flatten = tiles
  ∧ insertRunsOK tileCapacity 0 (renderTilesTrace tileCapacity tiles) = true
  ∧ insertRunsOK tileCapacity 0 (transitionFrameTrace tileCapacity tiles) = true := by
  have hchunks : ∀ c ∈ chunkList tileCapacity tiles, c.length ≤ tileCapacity :=
    fun c hc => chunkListAux_length_le tileCapacity tiles.length tiles c hc
  refine ⟨hchunks, chunkListAux_flatten tileCapacity hcap tiles.length tiles le_rfl,
    ?_, ?_⟩
  · simp only [renderTilesTrace, insertRunsOK]
    exact insertRunsOK_chunks tileCapacity (chunkList tileCapacity tiles) hchunks
  · exact insertRunsOK_chunks tileCapacity (chunkList tileCapacity tiles) hchunks

/-- Witness for C7 with capacity 2 over three tiles (two chunks). -/
theorem renderTiles_chunking_witness :
    0 < 2
  ∧ ((∀ c ∈ chunkList 2 ([7, 8, 9] : List ℕ), c.length ≤ 2)
     ∧ (chunkList 2 ([7, 8, 9] : List ℕ)).flatten = [7, 8, 9]
     ∧ insertRunsOK 2 0 (renderTilesTrace 2 [7, 8, 9]) = true
     ∧ insertRunsOK 2 0 (transitionFrameTrace 2 [7, 8, 9]) = true) :=
  ⟨by decide, renderTiles_chunking 2 [7, 8, 9] (by decide)⟩

/-- Counterexample to C7 as stated: with `tileCapacity = 1` and two tiles,
`renderTiles` issues its single `clearTiles` and then inserts two tiles
with no intervening clear — the insertions since the last `clearTiles`
exceed the capacity — and a transition frame does so having never issued a
`clearTiles` at all. -/
theorem renderTiles_capacity_counterexample :
    insertsSinceClearOK 1 0 (renderTilesTrace 1 [0, 1]) = false
  ∧ insertsSinceClearOK 1 0 (transitionFrameTrace 1 [0, 1]) = false := by
  decide

/-! ## C1: float codec round-trip -/

/-- Folding the weighted-sum step from an arbitrary accumulator. -/
theorem valBits_go (l : List Bool) :
    ∀ a : ℕ, l.foldl (fun acc b => 2 * acc + b.toNat) a = a * 2 ^ l.length + valBits l := by
  induction l with
  | nil => intro a; simp [valBits]
  | cons b l ih =>
    intro a
    simp only [List.foldl_cons, List.length_cons, valBits]
    rw [ih (2 * a + b.toNat), ih (2 * 0 + b.toNat)]
    ring

/-- Value of a bit string with a leading bit. -/
theorem valBits_cons (b : Bool) (l : List Bool) :
    valBits (b :: l) = b.toNat * 2 ^ l.length + valBits l := by
  have h := valBits_go l b.toNat
  simp only [valBits, List.foldl_cons]
  simpa using h

/-- Value of a concatenation of bit strings. -/
theorem valBits_append (l₁ l₂ : List Bool) :
    valBits (l₁ ++ l₂) = valBits l₁ * 2 ^ l₂.length + valBits l₂ := by
  induction l₁ with
  | nil => simp [valBits]
  | cons b l ih =>
    simp only [List.cons_append, valBits_cons, List.length_append, ih]
    ring

/-- The bit-extraction loop emits exactly `k` bits. -/
theorem byteBitsAux_length : ∀ (k acc : ℕ), (byteBitsAux acc k).length = k := by
  intro k
  induction k with
  | zero => intro acc; rfl
  | succ k ih => intro acc; simp [byteBitsAux, ih]

/-- The comparison/modulo loop of `bytesToBits` is a correct binary
expansion: the emitted most-significant-first bits have value `acc`. -/
theorem byteBitsAux_val : ∀ (k acc : ℕ), acc < 2 ^ k →
    valBits (byteBitsAux acc k) = acc := by
  intro k
  induction k with
  | zero =>
    intro acc h
    have : acc = 0 := by simpa using h
    subst this
    rfl
  | succ k ih =>
    intro acc h
    have hpos : 0 < 2 ^ k := by positivity
    rw [show byteBitsAux acc (k + 1)
        = decide (2 ^ k ≤ acc) :: byteBitsAux (acc % 2 ^ k) k from rfl]
    rw [valBits_cons, byteBitsAux_length, ih (acc % 2 ^ k) (Nat.mod_lt _ hpos)]
    have h2 : 2 ^ (k + 1) = 2 * 2 ^ k := by ring
    by_cases hle : 2 ^ k ≤ acc
    · have hmod : acc % 2 ^ k = acc - 2 ^ k := by
        rw [Nat.mod_eq_sub_mod hle, Nat.mod_eq_of_lt (by omega)]
      rw [decide_eq_true hle, hmod]
      simp only [Bool.toNat_true]
      omega
    · rw [decide_eq_false hle, Nat.mod_eq_of_lt (by omega)]
      simp

/-- Field extraction from the 32 bits of a 4-byte quadruple: bit 0 is the
top bit of byte 0, bits 1–8 form the exponent field, bits 9–31 the
mantissa field. -/
theorem bytesToBits_fields (b0 b1 b2 b3 : ℕ) (h1 : b1 < 256)
    (h2 : b2 < 256) (h3 : b3 < 256) :
    (bytesToBits [b0, b1, b2, b3]).getD 0 false = decide (128 ≤ b0)
  ∧ getExponent (bytesToBits [b0, b1, b2, b3]) = (b0 % 128) * 2 + b1 / 128
  ∧ valBits (((bytesToBits [b0, b1, b2, b3]).drop 9).take 23)
      = (b1 % 128) * 2 ^ 16 + b2 * 2 ^ 8 + b3 := by
  have hbits : bytesToBits [b0, b1, b2, b3]
      = byteBitsAux b0 8 ++ (byteBitsAux b1 8 ++ (byteBitsAux b2 8 ++ byteBitsAux b3 8)) := by
    simp [bytesToBits]
  have hB0 : byteBitsAux b0 8 = decide (2 ^ 7 ≤ b0) :: byteBitsAux (b0 % 2 ^ 7) 7 := rfl
  have hB1 : byteBitsAux b1 8 = decide (2 ^ 7 ≤ b1) :: byteBitsAux (b1 % 2 ^ 7) 7 := rfl
  refine ⟨?_, ?_, ?_⟩
  · rw [hbits, hB0]
    have : (128 : ℕ) = 2 ^ 7 := by norm_num
    simp [this]
  · rw [getExponent, hbits, hB0, List.cons_append, List.drop_succ_cons, List.drop_zero]
    have htake : (byteBitsAux (b0 % 2 ^ 7) 7
          ++ (byteBitsAux b1 8 ++ (byteBitsAux b2 8 ++ byteBitsAux b3 8))).take 8
        = byteBitsAux (b0 % 2 ^ 7) 7
          ++ (byteBitsAux b1 8 ++ (byteBitsAux b2 8 ++ byteBitsAux b3 8)).take 1 := by
      have h := @List.take_append _ (byteBitsAux (b0 % 2 ^ 7) 7)
        (byteBitsAux b1 8 ++ (byteBitsAux b2 8 ++ byteBitsAux b3 8)) 1
      rw [byteBitsAux_length] at h
      exact h
    rw [htake, hB1, List.cons_append, List.take_succ_cons, List.take_zero]
    rw [valBits_append, valBits_cons]
    rw [byteBitsAux_val 7 (b0 % 2 ^ 7) (Nat.mod_lt _ (by positivity))]
    have hd : (decide (2 ^ 7 ≤ b1)).toNat = b1 / 128 := by
      by_cases hle : 2 ^ 7 ≤ b1
      · rw [decide_eq_true hle]; simp only [Bool.toNat_true]
        norm_num at hle; omega
      · rw [decide_eq_false hle]; simp only [Bool.toNat_false]
        norm_num at hle; omega
    simp only [List.length_cons, List.length_nil, valBits, List.foldl_nil, hd]
    have : b0 % 2 ^ 7 = b0 % 128 := by norm_num
    rw [this]
    ring
  · rw [hbits]
    have hdrop : (byteBitsAux b0 8
          ++ (byteBitsAux b1 8 ++ (byteBitsAux b2 8 ++ byteBitsAux b3 8))).drop 9
        = (byteBitsAux b1 8 ++ (byteBitsAux b2 8 ++ byteBitsAux b3 8)).drop 1 := by
      have h := @List.drop_append _ (byteBitsAux b0 8)
        (byteBitsAux b1 8 ++ (byteBitsAux b2 8 ++ byteBitsAux b3 8)) 1
      rw [byteBitsAux_length] at h
      exact h
    rw [hdrop, hB1, List.cons_append, List.drop_succ_cons, List.drop_zero]
    rw [List.take_of_length_le (by
      simp only [List.length_append, byteBitsAux_length]
      omega)]
    rw [valBits_append, valBits_append]
    rw [byteBitsAux_val 7 (b1 % 2 ^ 7) (Nat.mod_lt _ (by positivity)),
      byteBitsAux_val 8 b2 (by omega), byteBitsAux_val 8 b3 (by omega)]
    simp only [List.length_append, byteBitsAux_length]
    have : b1 % 2 ^ 7 = b1 % 128 := by norm_num
    rw [this]
    ring

/-- Denormalizing the normalized channels recovers the original bytes
exactly: `ivec4((b/255) * 255) = b` in exact arithmetic. -/
theorem floatsToBytes_ieeeChannels (s : Bool) (e m : ℕ) (littleEndian : Bool) :
    floatsToBytes (ieeeChannels s e m littleEndian) littleEndian = ieeeBytes s e m := by
  have hfloor : ∀ b : ℕ, (⌊((b : ℚ) / 255) * 255⌋).toNat = b := by
    intro b
    rw [div_mul_cancel₀ ((b : ℚ)) (by norm_num : (255 : ℚ) ≠ 0)]
    simp
  cases littleEndian <;>
    simp only [floatsToBytes, ieeeChannels, ieeeBytes, List.map_cons, List.map_nil,
      List.reverse_cons, List.reverse_nil, List.nil_append, List.cons_append,
      List.append_nil, if_true, if_false, Bool.false_eq_true, ite_false, ite_true,
      hfloor]

/-- Amended claim C1: for every *normal* 32-bit IEEE-754 float (exponent
field between 1 and 254 — all non-NaN/Infinity values except subnormals),
splitting its four bytes into channel values in `[0,1]` in either big- or
little-endian channel order and decoding with `rgbaToFloat` (matching
`littleEndian` flag) reproduces the value exactly, in particular with
relative error below 1e-6. (The counterexample forces the exclusion of
subnormals: the decoder applies the biased exponent `e - 150` to the
`e = 0` case as well, producing exactly half the IEEE-754 subnormal
value — relative error 1/2.) -/
theorem rgbaToFloat_roundtrip_normal (s : Bool) (e m : ℕ) (littleEndian : Bool)
    (he1 : 1 ≤ e) (he2 : e ≤ 254) (hm : m < 2 ^ 23) :
    rgbaToFloat (ieeeChannels s e m littleEndian) littleEndian = ieeeVal s e m
  ∧ |rgbaToFloat (ieeeChannels s e m littleEndian) littleEndian - ieeeVal s e m|
      < 1 / 1000000 * |ieeeVal s e m| := by
  have hmain : rgbaToFloat (ieeeChannels s e m littleEndian) littleEndian
      = ieeeVal s e m := by
    rw [rgbaToFloat, floatsToBytes_ieeeChannels]
    have hst : s.toNat ≤ 1 := by cases s <;> simp
    have hb1 : (e % 2) * 128 + m / 2 ^ 16 < 256 := by omega
    have hb2 : (m / 2 ^ 8) % 256 < 256 := by omega
    have hb3 : m % 256 < 256 := by omega
    obtain ⟨hsign, hexp, hmant⟩ := bytesToBits_fields
      (128 * s.toNat + e / 2) ((e % 2) * 128 + m / 2 ^ 16) ((m / 2 ^ 8) % 256)
      (m % 256) hb1 hb2 hb3
    simp only [ieeeBytes]
    have hsign' : decide (128 ≤ 128 * s.toNat + e / 2) = s := by
      cases s <;> simp
      all_goals omega
    have hexp' : ((128 * s.toNat + e / 2) % 128) * 2 + ((e % 2) * 128 + m / 2 ^ 16) / 128
        = e := by
      cases s <;> simp <;> omega
    have hmant' : (((e % 2) * 128 + m / 2 ^ 16) % 128) * 2 ^ 16
        + ((m / 2 ^ 8) % 256) * 2 ^ 8 + m % 256 = m := by
      omega
    rw [bitsToFloat, getMantissa]
    rw [hsign, hexp, hmant, hsign', hexp', hmant']
    rw [decide_eq_false (by omega : ¬ e = 0)]
    rw [ieeeVal, if_neg (by omega : ¬ e = 0)]
    have hez : (e : ℤ) - 127 - 23 = (e : ℤ) - 150 := by ring
    rw [hez]
    push_cast
    ring
  refine ⟨hmain, ?_⟩
  have hne : ieeeVal s e m ≠ 0 := by
    rw [ieeeVal, if_neg (by omega : ¬ e = 0)]
    apply mul_ne_zero
    · cases s <;> norm_num
    · apply mul_ne_zero
      · positivity
      · exact zpow_ne_zero _ (by norm_num)
  rw [hmain, sub_self, abs_zero]
  exact mul_pos (by norm_num) (abs_pos.mpr hne)

/-- Witness for C1 at the normal float with sign bit set, exponent field
130 and mantissa field 5, little-endian channel order. -/
theorem rgbaToFloat_roundtrip_normal_witness :
    ((1 : ℕ) ≤ 130 ∧ (130 : ℕ) ≤ 254 ∧ (5 : ℕ) < 2 ^ 23)
  ∧ (rgbaToFloat (ieeeChannels true 130 5 true) true = ieeeVal true 130 5
     ∧ |rgbaToFloat (ieeeChannels true 130 5 true) true - ieeeVal true 130 5|
        < 1 / 1000000 * |ieeeVal true 130 5|) :=
  ⟨⟨by norm_num, by norm_num, by norm_num⟩,
    rgbaToFloat_roundtrip_normal true 130 5 true (by norm_num) (by norm_num)
      (by norm_num)⟩

/-- Counterexample to C1 as stated: the smallest positive subnormal float
(sign 0, exponent field 0, mantissa field 1; big-endian bytes
`[0, 0, 0, 1]`, channels `[0, 0, 0, 1/255]`) has IEEE-754 value `2⁻¹⁴⁹`,
but the codec decodes it to `2⁻¹⁵⁰` — half the value, relative error 1/2,
far above the claimed 1e-6 bound. -/
theorem rgbaToFloat_subnormal_counterexample :
    ieeeChannels false 0 1 false = [0, 0, 0, 1 / 255]
  ∧ rgbaToFloat (ieeeChannels false 0 1 false) false = 1 / 2 ^ 150
  ∧ ieeeVal false 0 1 = 1 / 2 ^ 149
  ∧ ¬(|rgbaToFloat (ieeeChannels false 0 1 false) false - ieeeVal false 0 1|
      < 1 / 1000000 * |ieeeVal false 0 1|) := by
  have hchan : ieeeChannels false 0 1 false = [0, 0, 0, 1 / 255] := by
    norm_num [ieeeChannels, ieeeBytes]
  have hval : ieeeVal false 0 1 = 1 / 2 ^ 149 := by
    norm_num [ieeeVal]
  have hdec : rgbaToFloat (ieeeChannels false 0 1 false) false = 1 / 2 ^ 150 := by
    rw [rgbaToFloat, floatsToBytes_ieeeChannels]
    norm_num [ieeeBytes, bytesToBits, byteBitsAux, bitsToFloat, getExponent,
      getMantissa, valBits]
  refine ⟨hchan, hdec, hval, ?_⟩
  rw [hdec, hval]
  rw [abs_of_nonpos (by norm_num), abs_of_nonneg (by norm_num)]
  norm_num

/-- Witness for C8: a one-pixel tile holding the big-endian bytes of the
float `1.0`, with a sentinel configured at offset `1`, classifies as that
sentinel. -/
theorem getPixelValue_correct_witness :
    getPixelValue [63, 128, 0, 0] 1 0 0 false (-999999) [⟨1, ⟨0, 1, 0, 1⟩, "one"⟩]
      = some (Sum.inr ⟨1, ⟨0, 1, 0, 1⟩, "one"⟩) := by
  have hv : (1 : ℚ) = getFloat32 [63, 128, 0, 0] ((0 * 1 + 0) * BYTES_PER_WORD) false := by
    norm_num [getFloat32, ieeeVal, List.getD, BYTES_PER_WORD]
  have h := (getPixelValue_correct [63, 128, 0, 0] 1 0 0 false (-999999)
      [⟨1, ⟨0, 1, 0, 1⟩, "one"⟩] 1 hv).2.1 0 (by simp) rfl
      (fun k hk => absurd hk (Nat.not_lt_zero k)) (by norm_num)
  simpa using h
